import Mathlib

set_option linter.unusedVariables false

/-!
Verification of the databoard board-hierarchy engine.

Shallow embedding of the Rust sources:
  src/remappings.rs  (key-syntax helpers, remapping table)
  src/entry.rs       (type-erased entries, read/write guards)
  src/database.rs    (one board's local storage)
  src/databoard.rs   (routing layer over a parent chain)

Modelling conventions:
  - Rust str values are modelled as List Char.
  - Type-erased values (Box of dyn Any) are modelled as a runtime type tag
    (a Nat) plus an opaque payload (a Nat); a downcast to T succeeds exactly
    when the stored tag equals the requested tag, matching runtime type
    identity.
  - usize arithmetic is explicit: USIZE is 2 to the 64th power, and the
    unchecked increment in the write-guard drop is modelled as addition
    modulo USIZE (release-mode wrapping semantics).
  - The per-entry reader/writer lock (spin RwLock) is modelled by a reader
    count and a writer flag carried in every entry.  Guard constructors,
    which acquire the lock and keep it for the guard's lifetime, consult
    and update this state; an acquisition that would spin forever is the
    distinguished outcome LockRes.blocks.  Operations that acquire a lock
    only transiently inside one call (read, update, delete, sequence_id,
    contains) are modelled atomically, without consulting the lock state.
  - Arc reference counting and thread identity are not modelled.
-/

/-- Rust str, modelled as a list of characters. -/
abbrev Str := List Char

/-- Number of values of usize: 2 to the 64th power. -/
def USIZE : Nat := 2 ^ 64

/-- Error kinds of src/error.rs together with the kinds used by
src/databoard.rs (NoParent, Assignment, IsLocked, AlreadyExists).
Payloads (the offending key and similar) are not modelled; no claim
mentions them. -/
inductive Err where
  | alreadyExists
  | alreadyRemapped
  | notFound
  | wrongType
  | isLocked
  | noParent
  | assignment
  | unexpected
deriving DecidableEq

/-- EntryData of src/entry.rs (sequence_id plus type-erased data),
extended with the state of the entry's reader/writer lock:
readers is the number of outstanding shared acquisitions and writer
tells whether the exclusive lock is held. -/
structure Entry where
  sequence_id : Nat
  ty : Nat
  val : Nat
  readers : Nat
  writer : Bool
deriving DecidableEq

/-- Outcome of an operation that takes an entry lock: success carrying a
value, an error, or blocking forever on a lock that is already held
(the blocking acquisition of a spin lock). -/
inductive LockRes (α : Type) where
  | ok (a : α)
  | err (e : Err)
  | blocks
deriving DecidableEq

-- region: key-syntax helpers of src/remappings.rs

/-- check_top_level_key of src/remappings.rs: strip one leading at-sign,
return the original key as the error value otherwise. -/
def check_top_level_key : Str → Except Str Str
  | [] => .error []
  | c :: rest => if c = '@' then .ok rest else .error (c :: rest)

/-- check_local_key of src/remappings.rs: strip one leading underscore,
return the original key as the error value otherwise. -/
def check_local_key : Str → Except Str Str
  | [] => .error []
  | c :: rest => if c = '_' then .ok rest else .error (c :: rest)

/-- Helper for Rust String.ends_with on one character: the last character
of the string equals the given one. -/
def strEndsWith (c : Char) (s : Str) : Bool :=
  match s.getLast? with
  | some x => x = c
  | none => false

/-- Helper for Rust String.starts_with on one character. -/
def strStartsWith (c : Char) (s : Str) : Bool :=
  match s with
  | [] => false
  | x :: _ => x = c

/-- Helper for Rust strip_suffix on one character: drop the final
character when it equals the given one. -/
def stripSuffixChar (c : Char) (s : Str) : Option Str :=
  match s.reverse with
  | x :: xs => if x = c then some xs.reverse else none
  | [] => none

/-- is_const_assignment of src/remappings.rs: the key neither starts with
an opening brace nor ends with a closing brace.  (This is the source's
conjunction of two negations, not the negation of a conjunction.) -/
def is_const_assignment (s : Str) : Bool :=
  !(strStartsWith '{' s) && !(strEndsWith '}' s)

/-- is_board_pointer of src/remappings.rs: starts with an opening brace
and ends with a closing brace. -/
def is_board_pointer (s : Str) : Bool :=
  strStartsWith '{' s && strEndsWith '}' s

/-- strip_board_pointer of src/remappings.rs: strip one leading opening
brace and one trailing closing brace, none if either is missing. -/
def strip_board_pointer (s : Str) : Option Str :=
  match s with
  | c :: rest => if c = '{' then stripSuffixChar '}' rest else none
  | [] => none

/-- check_board_pointer of src/remappings.rs: like strip_board_pointer
but returning the unchanged key as the error value. -/
def check_board_pointer (s : Str) : Except Str Str :=
  match strip_board_pointer s with
  | some inner => .ok inner
  | none => .error s

-- endregion

-- region: Remappings of src/remappings.rs

/-- The literal self-binding shortcut target, an equals sign in braces. -/
def eqShortcut : Str := ['{', '=', '}']

/-- Wrap a name in braces, as String::from plus key plus closing brace
does in Remappings::find. -/
def wrapBrace (k : Str) : Str := '{' :: (k ++ ['}'])

/-- A remapping table: ordered list of (source, target) rules. -/
abbrev Remaps := List (Str × Str)

/-- Remappings::find of src/remappings.rs: first rule whose source equals
the key; a stored shortcut target expands to the key wrapped in braces. -/
def Remappings.find : Remaps → Str → Option Str
  | [], _ => none
  | (orig, rem) :: rest, k =>
    if orig = k then
      some (if rem = eqShortcut then wrapBrace k else rem)
    else Remappings.find rest k

/-- Remappings::remap of src/remappings.rs: like find, but the shortcut
yields the name itself and a missing rule yields the name unchanged. -/
def Remappings.remap : Remaps → Str → Str
  | [], n => n
  | (orig, rem) :: rest, n =>
    if orig = n then
      (if rem = eqShortcut then n else rem)
    else Remappings.remap rest n

/-- Plain first-match lookup of the stored target of a source key,
before the shortcut expansion; used to state what a table maps a key
to, in the words of the specification. -/
def lookupSrc : Remaps → Str → Option Str
  | [], _ => none
  | (orig, rem) :: rest, k => if orig = k then some rem else lookupSrc rest k

/-- Remappings::add of src/remappings.rs: append, failing when the source
is already present. -/
def Remappings.add (rs : Remaps) (k t : Str) : Except Err Remaps :=
  if (lookupSrc rs k).isSome then .error .alreadyRemapped
  else .ok (rs ++ [(k, t)])

-- endregion

-- region: entry guards of src/entry.rs

/-- EntryReadGuard::new: acquire the shared lock (blocking while a writer
holds the entry), leak the lock guard, then downcast.  The leak happens
before the downcast, so on a type mismatch the function returns WrongType
with the shared acquisition still outstanding. -/
def EntryReadGuard.new (ty : Nat) (e : Entry) : LockRes Nat × Entry :=
  if e.writer then (.blocks, e)
  else
    let locked := { e with readers := e.readers + 1 }
    if locked.ty = ty then (.ok locked.val, locked)
    else (.err .wrongType, locked)

/-- EntryReadGuard::try_new: as new, but a held writer lock yields
IsLocked instead of blocking. -/
def EntryReadGuard.try_new (ty : Nat) (e : Entry) : LockRes Nat × Entry :=
  if e.writer then (.err .isLocked, e)
  else
    let locked := { e with readers := e.readers + 1 }
    if locked.ty = ty then (.ok locked.val, locked)
    else (.err .wrongType, locked)

/-- EntryReadGuard::drop: release one shared acquisition. -/
def EntryReadGuard.drop (e : Entry) : Entry :=
  { e with readers := e.readers - 1 }

/-- EntryWriteGuard::new: acquire the exclusive lock (blocking while any
reader or writer holds the entry), leak the lock guard, then downcast.
On a type mismatch the exclusive lock stays held. -/
def EntryWriteGuard.new (ty : Nat) (e : Entry) : LockRes Nat × Entry :=
  if e.writer || decide (0 < e.readers) then (.blocks, e)
  else
    let locked := { e with writer := true }
    if locked.ty = ty then (.ok locked.val, locked)
    else (.err .wrongType, locked)

/-- EntryWriteGuard::try_new: as new, but an unavailable lock yields
IsLocked instead of blocking. -/
def EntryWriteGuard.try_new (ty : Nat) (e : Entry) : LockRes Nat × Entry :=
  if e.writer || decide (0 < e.readers) then (.err .isLocked, e)
  else
    let locked := { e with writer := true }
    if locked.ty = ty then (.ok locked.val, locked)
    else (.err .wrongType, locked)

/-- The mutable state a write guard carries besides its pointers: the
modified flag, false on construction. -/
structure GuardSt where
  modified : Bool
deriving DecidableEq

/-- EntryWriteGuard::deref_mut sets the modified flag (the returned
pointer itself carries no state in this model). -/
def EntryWriteGuard.deref_mut (_ : GuardSt) : GuardSt := ⟨true⟩

/-- Taking the mutable accessor n times in sequence. -/
def derefMutN : Nat → GuardSt → GuardSt
  | 0, g => g
  | n + 1, g => derefMutN n (EntryWriteGuard.deref_mut g)

/-- EntryWriteGuard::drop: when modified, perform the unchecked increment
of the sequence counter (usize wrapping, hence modulo USIZE), then
release the exclusive lock. -/
def EntryWriteGuard.drop (g : GuardSt) (e : Entry) : Entry :=
  let e1 :=
    if g.modified then { e with sequence_id := (e.sequence_id + 1) % USIZE }
    else e
  { e1 with writer := false }

-- endregion

-- region: Database of src/database.rs

/-- One board's local storage, the key to entry mapping.  The underlying
BTreeMap's key ordering only affects debug output, so an association
list suffices. -/
abbrev Database := List (Str × Entry)

/-- Lookup of the entry stored under a key. -/
def dbGet : Database → Str → Option Entry
  | [], _ => none
  | (k', e) :: rest, k => if k' = k then some e else dbGet rest k

/-- Replace the entry stored under a key (no effect when absent). -/
def dbSet : Database → Str → Entry → Database
  | [], _, _ => []
  | (k', e') :: rest, k, e =>
    if k' = k then (k', e) :: rest else (k', e') :: dbSet rest k e

/-- Remove the entry stored under a key. -/
def dbRemove : Database → Str → Database
  | [], _ => []
  | (k', e') :: rest, k =>
    if k' = k then rest else (k', e') :: dbRemove rest k

/-- The sequence-counter step of Database::update: increment, wrapping
to 1 (usize MIN plus 1) after usize MAX. -/
def nextSeq (s : Nat) : Nat := if s < USIZE - 1 then s + 1 else 1

/-- Database::contains_key. -/
def Database.contains_key (db : Database) (k : Str) : Bool :=
  (dbGet db k).isSome

/-- Database::contains with requested runtime type ty: true when present
with that type, WrongType when present with another, false when absent. -/
def Database.contains (db : Database) (ty : Nat) (k : Str) : Except Err Bool :=
  match dbGet db k with
  | some e => if e.ty = ty then .ok true else .error .wrongType
  | none => .ok false

/-- Database::create: insert a fresh entry with sequence_id 1 and a free
lock; AlreadyExists when the key is present. -/
def Database.create (db : Database) (ty : Nat) (k : Str) (v : Nat) :
    Except Err Database :=
  if (dbGet db k).isSome then .error .alreadyExists
  else .ok (db ++ [(k, ⟨1, ty, v, 0, false⟩)])

/-- Database::delete: type check first (so a failed delete leaves the
database unchanged), then remove and return the owned value.  The Arc
unwrapping and the final blocking lock acquisition are not modelled. -/
def Database.delete (db : Database) (ty : Nat) (k : Str) :
    Except Err (Nat × Database) :=
  match dbGet db k with
  | none => .error .notFound
  | some e =>
    if e.ty = ty then .ok (e.val, dbRemove db k) else .error .wrongType

/-- Database::read: clone of the stored value. -/
def Database.read (db : Database) (ty : Nat) (k : Str) : Except Err Nat :=
  match dbGet db k with
  | none => .error .notFound
  | some e => if e.ty = ty then .ok e.val else .error .wrongType

/-- Database::sequence_id. -/
def Database.sequence_id (db : Database) (k : Str) : Except Err Nat :=
  match dbGet db k with
  | none => .error .notFound
  | some e => .ok e.sequence_id

/-- Database::entry: a clone of the entry handle. -/
def Database.entry (db : Database) (k : Str) : Except Err Entry :=
  match dbGet db k with
  | none => .error .notFound
  | some e => .ok e

/-- Database::update: in-place replace under the entry's write lock,
returning the previous value and bumping the sequence counter with
wrap-around to 1; NotFound and WrongType leave everything untouched. -/
def Database.update (db : Database) (ty : Nat) (k : Str) (v : Nat) :
    Except Err (Nat × Database) :=
  match dbGet db k with
  | none => .error .notFound
  | some e =>
    if e.ty = ty then
      .ok (e.val, dbSet db k { e with val := v, sequence_id := nextSeq e.sequence_id })
    else .error .wrongType

/-- Database::get_ref: construct a read guard on the stored entry. -/
def Database.get_ref (db : Database) (ty : Nat) (k : Str) :
    LockRes Nat × Database :=
  match dbGet db k with
  | none => (.err .notFound, db)
  | some e =>
    let r := EntryReadGuard.new ty e
    (r.1, dbSet db k r.2)

/-- Database::try_get_ref: non-blocking read guard. -/
def Database.try_get_ref (db : Database) (ty : Nat) (k : Str) :
    LockRes Nat × Database :=
  match dbGet db k with
  | none => (.err .notFound, db)
  | some e =>
    let r := EntryReadGuard.try_new ty e
    (r.1, dbSet db k r.2)

/-- Database::get_mut_ref: construct a write guard on the stored entry. -/
def Database.get_mut_ref (db : Database) (ty : Nat) (k : Str) :
    LockRes Nat × Database :=
  match dbGet db k with
  | none => (.err .notFound, db)
  | some e =>
    let r := EntryWriteGuard.new ty e
    (r.1, dbSet db k r.2)

/-- Database::try_get_mut_ref: non-blocking write guard. -/
def Database.try_get_mut_ref (db : Database) (ty : Nat) (k : Str) :
    LockRes Nat × Database :=
  match dbGet db k with
  | none => (.err .notFound, db)
  | some e =>
    let r := EntryWriteGuard.try_new ty e
    (r.1, dbSet db k r.2)

-- endregion

-- region: Board of src/databoard.rs

/-- DataboardInner of src/databoard.rs: a local database, an optional
parent board, a remapping table and the autoremap flag.  The optional
parent of the Rust struct is split into two constructors (base for
parent None, child for parent Some) to obtain plain structural
recursion; Board.parent recovers the Option view. -/
inductive Board where
  | base (database : Database) (remappings : Remaps) (autoremap : Bool)
  | child (database : Database) (remappings : Remaps) (autoremap : Bool)
      (parent : Board)
deriving DecidableEq

/-- The board's local database. -/
def Board.database : Board → Database
  | .base db _ _ => db
  | .child db _ _ _ => db

/-- The board's remapping table. -/
def Board.remappings : Board → Remaps
  | .base _ rm _ => rm
  | .child _ rm _ _ => rm

/-- The board's autoremap flag. -/
def Board.autoremap : Board → Bool
  | .base _ _ ar => ar
  | .child _ _ ar _ => ar

/-- The board's optional parent, as in the Rust struct. -/
def Board.parent : Board → Option Board
  | .base _ _ _ => none
  | .child _ _ _ p => some p

/-- Replace the board's local database (the in-place mutation behind the
database RwLock). -/
def Board.withDatabase : Board → Database → Board
  | .base _ rm ar, db => .base db rm ar
  | .child _ rm ar p, db => .child db rm ar p

/-- Height of the parent chain, the termination measure of the router. -/
def sizeB : Board → Nat
  | .base _ _ _ => 1
  | .child _ _ _ p => sizeB p + 1

/-- DataboardInner::root: the farthest ancestor, or the board itself
when it has no parent. -/
def rootB : Board → Board
  | .base db rm ar => .base db rm ar
  | .child _ _ _ p => rootB p

/-- Replace the farthest ancestor of a board by a new board: the view a
board has of its chain after an in-place mutation of the shared root. -/
def graftRoot : Board → Board → Board
  | .base _ _ _, r => r
  | .child db rm ar p, r => .child db rm ar (graftRoot p r)

/-- The root of a chain is never taller than the chain. -/
theorem rootB_size_le (b : Board) : sizeB (rootB b) ≤ sizeB b := by
  induction b with
  | base db rm ar => simp [rootB, sizeB]
  | child db rm ar p ih =>
    calc sizeB (rootB (Board.child db rm ar p)) = sizeB (rootB p) := by
          simp [rootB]
      _ ≤ sizeB p := ih
      _ ≤ sizeB p + 1 := Nat.le_succ _
      _ = sizeB (Board.child db rm ar p) := by simp [sizeB]

/-- Stripping the top-level prefix shortens the key. -/
theorem check_top_level_key_length {k s : Str}
    (h : check_top_level_key k = .ok s) : s.length < k.length := by
  cases k with
  | nil => simp [check_top_level_key] at h
  | cons c rest =>
    by_cases hc : c = '@'
    · simp only [check_top_level_key, if_pos hc, Except.ok.injEq] at h
      subst h
      simp
    · simp [check_top_level_key, hc] at h

/-- Lexicographic step for the top-level redirect: the chain does not
grow and the key strictly shrinks. -/
theorem lexRoot (b : Board) {s k : Str} (h : s.length < k.length) :
    Prod.Lex (· < · : Nat → Nat → Prop) (· < · : Nat → Nat → Prop)
      (sizeB (rootB b), s.length) (sizeB b, k.length) := by
  rcases Nat.lt_or_ge (sizeB (rootB b)) (sizeB b) with h1 | h1
  · exact Prod.Lex.left _ _ h1
  · have h2 : sizeB (rootB b) = sizeB b := Nat.le_antisymm (rootB_size_le b) h1
    rw [h2]
    exact Prod.Lex.right _ h

/-- Lexicographic step for delegation to the parent. -/
theorem lexParent (db : Database) (rm : Remaps) (ar : Bool) (p : Board)
    (s k : Str) :
    Prod.Lex (· < · : Nat → Nat → Prop) (· < · : Nat → Nat → Prop)
      (sizeB p, s.length) (sizeB (Board.child db rm ar p), k.length) := by
  apply Prod.Lex.left
  simp [sizeB]

/-- DataboardInner::get of src/databoard.rs.  The pair returned by the
helper remapping_info is inlined: a find hit is the has_remapping case
with the remapped target as parent key, a miss leaves the original key.
The routing: top-level redirect, then local restriction, then a manual
remapping (whose target must be a board pointer leading to the parent),
then the autoremap fallback, then the local database. -/
def DataboardInner.get (b : Board) (ty : Nat) (key : Str) : Except Err Nat :=
  match h : check_top_level_key key with
  | .ok stripped => DataboardInner.get (rootB b) ty stripped
  | .error okey =>
    match check_local_key okey with
    | .ok lkey => Database.read b.database ty lkey
    | .error _ =>
      match Remappings.find b.remappings okey with
      | some parentKey =>
        match strip_board_pointer parentKey with
        | none => .error .assignment
        | some bp =>
          match b with
          | .base _ _ _ => .error .noParent
          | .child _ _ _ p => DataboardInner.get p ty bp
      | none =>
        if b.autoremap then
          match b with
          | .child _ _ _ p => DataboardInner.get p ty okey
          | .base _ _ _ => Database.read b.database ty okey
        else Database.read b.database ty okey
termination_by (sizeB b, key.length)
decreasing_by
  · exact lexRoot b (check_top_level_key_length h)
  · exact lexParent _ _ _ _ _ _
  · exact lexParent _ _ _ _ _ _

-- endregion

-- region: remaining DataboardInner operations of src/databoard.rs

/-- DataboardInner::contains_key: same routing as get; a remapping whose
target is not a board pointer, or a board pointer without a parent,
yields false. -/
def DataboardInner.contains_key (b : Board) (key : Str) : Bool :=
  match h : check_top_level_key key with
  | .ok stripped => DataboardInner.contains_key (rootB b) stripped
  | .error okey =>
    match check_local_key okey with
    | .ok lkey => Database.contains_key b.database lkey
    | .error _ =>
      match Remappings.find b.remappings okey with
      | some parentKey =>
        match strip_board_pointer parentKey with
        | some bp =>
          match b with
          | .child _ _ _ p => DataboardInner.contains_key p bp
          | .base _ _ _ => false
        | none => false
      | none =>
        if b.autoremap then
          match b with
          | .child _ _ _ p => DataboardInner.contains_key p okey
          | .base _ _ _ => Database.contains_key b.database okey
        else Database.contains_key b.database okey
termination_by (sizeB b, key.length)
decreasing_by
  · exact lexRoot b (check_top_level_key_length h)
  · exact lexParent _ _ _ _ _ _
  · exact lexParent _ _ _ _ _ _

/-- DataboardInner::contains: as contains_key but type checked; a
non-pointer remapping target yields Ok false, a pointer target without a
parent yields NoParent. -/
def DataboardInner.contains (b : Board) (ty : Nat) (key : Str) :
    Except Err Bool :=
  match h : check_top_level_key key with
  | .ok stripped => DataboardInner.contains (rootB b) ty stripped
  | .error okey =>
    match check_local_key okey with
    | .ok lkey => Database.contains b.database ty lkey
    | .error _ =>
      match Remappings.find b.remappings okey with
      | some parentKey =>
        match check_board_pointer parentKey with
        | .error _ => .ok false
        | .ok bp =>
          match b with
          | .base _ _ _ => .error .noParent
          | .child _ _ _ p => DataboardInner.contains p ty bp
      | none =>
        if b.autoremap then
          match b with
          | .child _ _ _ p => DataboardInner.contains p ty okey
          | .base _ _ _ => Database.contains b.database ty okey
        else Database.contains b.database ty okey
termination_by (sizeB b, key.length)
decreasing_by
  · exact lexRoot b (check_top_level_key_length h)
  · exact lexParent _ _ _ _ _ _
  · exact lexParent _ _ _ _ _ _

/-- DataboardInner::delete: routing as get; the second component is the
board as seen after the in-place removal. -/
def DataboardInner.delete (b : Board) (ty : Nat) (key : Str) :
    Except Err Nat × Board :=
  match h : check_top_level_key key with
  | .ok stripped =>
    let r := DataboardInner.delete (rootB b) ty stripped
    (r.1, graftRoot b r.2)
  | .error okey =>
    match check_local_key okey with
    | .ok lkey =>
      match Database.delete b.database ty lkey with
      | .ok (v, db') => (.ok v, b.withDatabase db')
      | .error e => (.error e, b)
    | .error _ =>
      match Remappings.find b.remappings okey with
      | some parentKey =>
        match strip_board_pointer parentKey with
        | none => (.error .assignment, b)
        | some bp =>
          match b with
          | .base _ _ _ => (.error .noParent, b)
          | .child db rm ar p =>
            let r := DataboardInner.delete p ty bp
            (r.1, .child db rm ar r.2)
      | none =>
        if b.autoremap then
          match b with
          | .child db rm ar p =>
            let r := DataboardInner.delete p ty okey
            (r.1, .child db rm ar r.2)
          | .base _ _ _ =>
            match Database.delete b.database ty okey with
            | .ok (v, db') => (.ok v, b.withDatabase db')
            | .error e => (.error e, b)
        else
          match Database.delete b.database ty okey with
          | .ok (v, db') => (.ok v, b.withDatabase db')
          | .error e => (.error e, b)
termination_by (sizeB b, key.length)
decreasing_by
  · exact lexRoot b (check_top_level_key_length h)
  · exact lexParent _ _ _ _ _ _
  · exact lexParent _ _ _ _ _ _

/-- DataboardInner::entry: clone of the routed entry handle. -/
def DataboardInner.entry (b : Board) (key : Str) : Except Err Entry :=
  match h : check_top_level_key key with
  | .ok stripped => DataboardInner.entry (rootB b) stripped
  | .error okey =>
    match check_local_key okey with
    | .ok lkey => Database.entry b.database lkey
    | .error _ =>
      match Remappings.find b.remappings okey with
      | some parentKey =>
        match strip_board_pointer parentKey with
        | none => .error .assignment
        | some bp =>
          match b with
          | .base _ _ _ => .error .noParent
          | .child _ _ _ p => DataboardInner.entry p bp
      | none =>
        if b.autoremap then
          match b with
          | .child _ _ _ p => DataboardInner.entry p okey
          | .base _ _ _ => Database.entry b.database okey
        else Database.entry b.database okey
termination_by (sizeB b, key.length)
decreasing_by
  · exact lexRoot b (check_top_level_key_length h)
  · exact lexParent _ _ _ _ _ _
  · exact lexParent _ _ _ _ _ _

/-- DataboardInner::sequence_id: routing as get. -/
def DataboardInner.sequence_id (b : Board) (key : Str) : Except Err Nat :=
  match h : check_top_level_key key with
  | .ok stripped => DataboardInner.sequence_id (rootB b) stripped
  | .error okey =>
    match check_local_key okey with
    | .ok lkey => Database.sequence_id b.database lkey
    | .error _ =>
      match Remappings.find b.remappings okey with
      | some parentKey =>
        match strip_board_pointer parentKey with
        | none => .error .assignment
        | some bp =>
          match b with
          | .base _ _ _ => .error .noParent
          | .child _ _ _ p => DataboardInner.sequence_id p bp
      | none =>
        if b.autoremap then
          match b with
          | .child _ _ _ p => DataboardInner.sequence_id p okey
          | .base _ _ _ => Database.sequence_id b.database okey
        else Database.sequence_id b.database okey
termination_by (sizeB b, key.length)
decreasing_by
  · exact lexRoot b (check_top_level_key_length h)
  · exact lexParent _ _ _ _ _ _
  · exact lexParent _ _ _ _ _ _

/-- DataboardInner::set: a local-prefixed key goes straight to
Database::update (never create); a routed key delegates; otherwise the
local fallback updates when contains_key holds and creates otherwise. -/
def DataboardInner.set (b : Board) (ty : Nat) (key : Str) (v : Nat) :
    Except Err (Option Nat) × Board :=
  match h : check_top_level_key key with
  | .ok stripped =>
    let r := DataboardInner.set (rootB b) ty stripped v
    (r.1, graftRoot b r.2)
  | .error okey =>
    match check_local_key okey with
    | .ok lkey =>
      match Database.update b.database ty lkey v with
      | .ok (old, db') => (.ok (some old), b.withDatabase db')
      | .error e => (.error e, b)
    | .error _ =>
      match Remappings.find b.remappings okey with
      | some parentKey =>
        match strip_board_pointer parentKey with
        | none => (.error .assignment, b)
        | some bp =>
          match b with
          | .base _ _ _ => (.error .noParent, b)
          | .child db rm ar p =>
            let r := DataboardInner.set p ty bp v
            (r.1, .child db rm ar r.2)
      | none =>
        if b.autoremap then
          match b with
          | .child db rm ar p =>
            let r := DataboardInner.set p ty okey v
            (r.1, .child db rm ar r.2)
          | .base _ _ _ =>
            if DataboardInner.contains_key b okey then
              match Database.update b.database ty okey v with
              | .ok (old, db') => (.ok (some old), b.withDatabase db')
              | .error e => (.error e, b)
            else
              match Database.create b.database ty okey v with
              | .ok db' => (.ok none, b.withDatabase db')
              | .error e => (.error e, b)
        else
          if DataboardInner.contains_key b okey then
            match Database.update b.database ty okey v with
            | .ok (old, db') => (.ok (some old), b.withDatabase db')
            | .error e => (.error e, b)
          else
            match Database.create b.database ty okey v with
            | .ok db' => (.ok none, b.withDatabase db')
            | .error e => (.error e, b)
termination_by (sizeB b, key.length)
decreasing_by
  · exact lexRoot b (check_top_level_key_length h)
  · exact lexParent _ _ _ _ _ _
  · exact lexParent _ _ _ _ _ _

/-- DataboardInner::get_ref: blocking read guard, routed as get. -/
def DataboardInner.get_ref (b : Board) (ty : Nat) (key : Str) :
    LockRes Nat × Board :=
  match h : check_top_level_key key with
  | .ok stripped =>
    let r := DataboardInner.get_ref (rootB b) ty stripped
    (r.1, graftRoot b r.2)
  | .error okey =>
    match check_local_key okey with
    | .ok lkey =>
      let r := Database.get_ref b.database ty lkey
      (r.1, b.withDatabase r.2)
    | .error _ =>
      match Remappings.find b.remappings okey with
      | some parentKey =>
        match strip_board_pointer parentKey with
        | none => (.err .assignment, b)
        | some bp =>
          match b with
          | .base _ _ _ => (.err .noParent, b)
          | .child db rm ar p =>
            let r := DataboardInner.get_ref p ty bp
            (r.1, .child db rm ar r.2)
      | none =>
        if b.autoremap then
          match b with
          | .child db rm ar p =>
            let r := DataboardInner.get_ref p ty okey
            (r.1, .child db rm ar r.2)
          | .base _ _ _ =>
            let r := Database.get_ref b.database ty okey
            (r.1, b.withDatabase r.2)
        else
          let r := Database.get_ref b.database ty okey
          (r.1, b.withDatabase r.2)
termination_by (sizeB b, key.length)
decreasing_by
  · exact lexRoot b (check_top_level_key_length h)
  · exact lexParent _ _ _ _ _ _
  · exact lexParent _ _ _ _ _ _

/-- DataboardInner::get_mut_ref: blocking write guard, routed as get. -/
def DataboardInner.get_mut_ref (b : Board) (ty : Nat) (key : Str) :
    LockRes Nat × Board :=
  match h : check_top_level_key key with
  | .ok stripped =>
    let r := DataboardInner.get_mut_ref (rootB b) ty stripped
    (r.1, graftRoot b r.2)
  | .error okey =>
    match check_local_key okey with
    | .ok lkey =>
      let r := Database.get_mut_ref b.database ty lkey
      (r.1, b.withDatabase r.2)
    | .error _ =>
      match Remappings.find b.remappings okey with
      | some parentKey =>
        match strip_board_pointer parentKey with
        | none => (.err .assignment, b)
        | some bp =>
          match b with
          | .base _ _ _ => (.err .noParent, b)
          | .child db rm ar p =>
            let r := DataboardInner.get_mut_ref p ty bp
            (r.1, .child db rm ar r.2)
      | none =>
        if b.autoremap then
          match b with
          | .child db rm ar p =>
            let r := DataboardInner.get_mut_ref p ty okey
            (r.1, .child db rm ar r.2)
          | .base _ _ _ =>
            let r := Database.get_mut_ref b.database ty okey
            (r.1, b.withDatabase r.2)
        else
          let r := Database.get_mut_ref b.database ty okey
          (r.1, b.withDatabase r.2)
termination_by (sizeB b, key.length)
decreasing_by
  · exact lexRoot b (check_top_level_key_length h)
  · exact lexParent _ _ _ _ _ _
  · exact lexParent _ _ _ _ _ _

/-- DataboardInner::try_get_mut_ref: non-blocking write guard; every
branch, the autoremap fallback included, uses the try variant. -/
def DataboardInner.try_get_mut_ref (b : Board) (ty : Nat) (key : Str) :
    LockRes Nat × Board :=
  match h : check_top_level_key key with
  | .ok stripped =>
    let r := DataboardInner.try_get_mut_ref (rootB b) ty stripped
    (r.1, graftRoot b r.2)
  | .error okey =>
    match check_local_key okey with
    | .ok lkey =>
      let r := Database.try_get_mut_ref b.database ty lkey
      (r.1, b.withDatabase r.2)
    | .error _ =>
      match Remappings.find b.remappings okey with
      | some parentKey =>
        match strip_board_pointer parentKey with
        | none => (.err .assignment, b)
        | some bp =>
          match b with
          | .base _ _ _ => (.err .noParent, b)
          | .child db rm ar p =>
            let r := DataboardInner.try_get_mut_ref p ty bp
            (r.1, .child db rm ar r.2)
      | none =>
        if b.autoremap then
          match b with
          | .child db rm ar p =>
            let r := DataboardInner.try_get_mut_ref p ty okey
            (r.1, .child db rm ar r.2)
          | .base _ _ _ =>
            let r := Database.try_get_mut_ref b.database ty okey
            (r.1, b.withDatabase r.2)
        else
          let r := Database.try_get_mut_ref b.database ty okey
          (r.1, b.withDatabase r.2)
termination_by (sizeB b, key.length)
decreasing_by
  · exact lexRoot b (check_top_level_key_length h)
  · exact lexParent _ _ _ _ _ _
  · exact lexParent _ _ _ _ _ _

/-- DataboardInner::try_get_ref: non-blocking read guard.  Transcribed
faithfully from src/databoard.rs lines 612 to 650: the autoremap
fallback calls the parent's BLOCKING get_ref, not try_get_ref (line
642), unlike every other branch and unlike try_get_mut_ref. -/
def DataboardInner.try_get_ref (b : Board) (ty : Nat) (key : Str) :
    LockRes Nat × Board :=
  match h : check_top_level_key key with
  | .ok stripped =>
    let r := DataboardInner.try_get_ref (rootB b) ty stripped
    (r.1, graftRoot b r.2)
  | .error okey =>
    match check_local_key okey with
    | .ok lkey =>
      let r := Database.try_get_ref b.database ty lkey
      (r.1, b.withDatabase r.2)
    | .error _ =>
      match Remappings.find b.remappings okey with
      | some parentKey =>
        match strip_board_pointer parentKey with
        | none => (.err .assignment, b)
        | some bp =>
          match b with
          | .base _ _ _ => (.err .noParent, b)
          | .child db rm ar p =>
            let r := DataboardInner.try_get_ref p ty bp
            (r.1, .child db rm ar r.2)
      | none =>
        if b.autoremap then
          match b with
          | .child db rm ar p =>
            let r := DataboardInner.get_ref p ty okey
            (r.1, .child db rm ar r.2)
          | .base _ _ _ =>
            let r := Database.try_get_ref b.database ty okey
            (r.1, b.withDatabase r.2)
        else
          let r := Database.try_get_ref b.database ty okey
          (r.1, b.withDatabase r.2)
termination_by (sizeB b, key.length)
decreasing_by
  · exact lexRoot b (check_top_level_key_length h)
  · exact lexParent _ _ _ _ _ _

/-- Databoard::new / Databoard::default: empty database, no parent, no
remappings, autoremap off. -/
def Databoard.new : Board := .base [] [] false

/-- Databoard::with of src/databoard.rs: empty database, the given
parent, the given remappings (default when absent) and the given
autoremap flag.  The Rust signature returns Self, not a Result: the
constructor cannot fail.  (Named withOpts because the Rust name is a
reserved word in Lean.) -/
def Databoard.withOpts (parent : Option Board) (rm : Option Remaps)
    (ar : Bool) : Board :=
  match parent with
  | none => .base [] (rm.getD []) ar
  | some p => .child [] (rm.getD []) ar p

/-- Databoard::with_parent: empty database and remappings, autoremap on. -/
def Databoard.with_parent (parent : Board) : Board :=
  .child [] [] true parent

-- endregion

-- region: helper lemmas

/-- Stripping a concrete underscore prefix. -/
theorem check_local_key_cons (k : Str) : check_local_key ('_' :: k) = .ok k := rfl

/-- A key that does not start with the at-sign is not a top-level key. -/
theorem check_top_level_key_of_head {k : Str} (h : k.head? ≠ some '@') :
    check_top_level_key k = .error k := by
  cases k with
  | nil => rfl
  | cons c rest =>
    have hc : c ≠ '@' := by simpa using h
    simp [check_top_level_key, hc]

/-- A key that does not start with the underscore is not a local key. -/
theorem check_local_key_of_head {k : Str} (h : k.head? ≠ some '_') :
    check_local_key k = .error k := by
  cases k with
  | nil => rfl
  | cons c rest =>
    have hc : c ≠ '_' := by simpa using h
    simp [check_local_key, hc]

/-- Once the mutable accessor has been taken, the modified flag stays set. -/
theorem derefMutN_true (n : Nat) : derefMutN n ⟨true⟩ = ⟨true⟩ := by
  induction n with
  | zero => rfl
  | succ m ih => simpa [derefMutN, EntryWriteGuard.deref_mut] using ih

/-- Taking the mutable accessor at least once sets the modified flag. -/
theorem derefMutN_pos {n : Nat} (g : GuardSt) (h : 1 ≤ n) :
    derefMutN n g = ⟨true⟩ := by
  cases n with
  | zero => omega
  | succ m => simpa [derefMutN, EntryWriteGuard.deref_mut] using derefMutN_true m

-- endregion

-- region: claim theorems

/-- Claim C2 (evidence of the code bug): a guard construction on an entry
whose stored runtime type (tag 0) differs from the requested one (tag 1)
fails with WrongType but does NOT leave the lock state unchanged: the
write-guard constructor leaves the exclusive lock held, so a subsequent
try-acquisition with the CORRECT type fails with IsLocked, and the
read-guard constructor leaves one shared acquisition outstanding, so a
subsequent exclusive try-acquisition fails with IsLocked.  This refutes
the claim that a WrongType attempt leaves no outstanding acquisition. -/
theorem c2_wrongType_leaves_lock_held :
    EntryWriteGuard.new 1 ⟨1, 0, 7, 0, false⟩
      = (.err .wrongType, ⟨1, 0, 7, 0, true⟩)
    ∧ EntryWriteGuard.try_new 0 ⟨1, 0, 7, 0, true⟩
      = (.err .isLocked, ⟨1, 0, 7, 0, true⟩)
    ∧ EntryReadGuard.new 1 ⟨1, 0, 7, 0, false⟩
      = (.err .wrongType, ⟨1, 0, 7, 1, false⟩)
    ∧ EntryWriteGuard.try_new 0 ⟨1, 0, 7, 1, false⟩
      = (.err .isLocked, ⟨1, 0, 7, 1, false⟩) := by
  decide

/-- Claim C3: over a write guard's lifetime the sequence counter is
incremented exactly once (in usize arithmetic) when the mutable accessor
was taken at least once, however many times it was taken, and is left
unchanged when the accessor was never taken; away from the wrap-around
point the increment is literally plus one. -/
theorem c3_write_guard_batch_counting (e : Entry) (n : Nat) :
    (1 ≤ n →
      (EntryWriteGuard.drop (derefMutN n ⟨false⟩) e).sequence_id
        = (e.sequence_id + 1) % USIZE)
    ∧ (EntryWriteGuard.drop (derefMutN 0 ⟨false⟩) e).sequence_id
        = e.sequence_id
    ∧ (1 ≤ n → e.sequence_id + 1 < USIZE →
      (EntryWriteGuard.drop (derefMutN n ⟨false⟩) e).sequence_id
        = e.sequence_id + 1) := by
  refine ⟨?_, ?_, ?_⟩
  · intro hn
    rw [derefMutN_pos _ hn]
    simp [EntryWriteGuard.drop]
  · simp [derefMutN, EntryWriteGuard.drop]
  · intro hn hlt
    rw [derefMutN_pos _ hn]
    simp [EntryWriteGuard.drop, Nat.mod_eq_of_lt hlt]

/-- Witness for C3 at a concrete entry and three mutable accesses. -/
theorem c3_witness :
    (EntryWriteGuard.drop (derefMutN 3 ⟨false⟩) ⟨5, 0, 9, 0, true⟩).sequence_id
      = 5 + 1 :=
  (c3_write_guard_batch_counting ⟨5, 0, 9, 0, true⟩ 3).2.2 (by decide)
    (by norm_num [USIZE])

/-- Claim C6 (evidence of the code bug): dropping a modified write guard
on an entry whose counter sits at usize MAX performs the unchecked
increment and lands on 0, not 1 -- while Database::update at the very
same counter value wraps to 1 as documented. -/
theorem c6_sequence_wrap_divergence :
    (EntryWriteGuard.drop ⟨true⟩ ⟨USIZE - 1, 0, 0, 0, true⟩).sequence_id = 0
    ∧ Database.update [(['t'], ⟨USIZE - 1, 0, 0, 0, false⟩)] 0 ['t'] 5
        = .ok (0, [(['t'], ⟨1, 0, 5, 0, false⟩)]) := by
  constructor
  · simp [EntryWriteGuard.drop, USIZE]
  · simp [Database.update, dbGet, dbSet, nextSeq]

/-- Claim C4 (counterexample): the string json colon brace x brace ends
with a closing brace but does not start with an opening brace, so it
does not both start and end with braces -- the claim demands true --
yet is_const_assignment returns false on it. -/
theorem c4_counterexample :
    is_const_assignment ['j', 's', 'o', 'n', ':', '{', 'x', '}'] = false
    ∧ ¬(['j', 's', 'o', 'n', ':', '{', 'x', '}'].head? = some '{'
        ∧ ['j', 's', 'o', 'n', ':', '{', 'x', '}'].getLast? = some '}') := by
  decide

/-- Claim C4 as amended: is_const_assignment returns true exactly when
the string neither starts with an opening brace nor ends with a closing
brace. -/
theorem c4_amended (s : Str) :
    is_const_assignment s = true
      ↔ s.head? ≠ some '{' ∧ s.getLast? ≠ some '}' := by
  cases s with
  | nil => simp [is_const_assignment, strStartsWith, strEndsWith]
  | cons c rest =>
    cases hl : (c :: rest).getLast? with
    | none => simp at hl
    | some x =>
      simp [is_const_assignment, strStartsWith, strEndsWith, hl]

/-- Claim C8: when the first rule for a source stores the literal
self-binding shortcut, find expands it to the braced source and remap
returns the source unchanged; any other stored target is returned as is
by both; with no rule find yields none and remap the name unchanged. -/
theorem c8_find_remap_semantics (rs : Remaps) (k : Str) :
    (lookupSrc rs k = some eqShortcut →
      Remappings.find rs k = some (wrapBrace k) ∧ Remappings.remap rs k = k)
    ∧ (∀ t, lookupSrc rs k = some t → t ≠ eqShortcut →
      Remappings.find rs k = some t ∧ Remappings.remap rs k = t)
    ∧ (lookupSrc rs k = none →
      Remappings.find rs k = none ∧ Remappings.remap rs k = k) := by
  induction rs with
  | nil => simp [lookupSrc, Remappings.find, Remappings.remap]
  | cons hd tl ih =>
    obtain ⟨o, r⟩ := hd
    by_cases ho : o = k
    · subst ho
      by_cases hr : r = eqShortcut <;>
        simp [lookupSrc, Remappings.find, Remappings.remap, hr]
    · simpa [lookupSrc, Remappings.find, Remappings.remap, ho] using ih

/-- Witness for C8 on a one-rule table using the shortcut. -/
theorem c8_witness :
    Remappings.find [(['a'], eqShortcut)] ['a'] = some (wrapBrace ['a'])
    ∧ Remappings.remap [(['a'], eqShortcut)] ['a'] = ['a'] :=
  (c8_find_remap_semantics [(['a'], eqShortcut)] ['a']).1 (by decide)

-- endregion

-- region: claim theorems, board level

/-- Claim C9 (counterexample): constructing a board with remappings but
no parent does not refuse -- the Rust constructor returns Self, not a
Result, so it cannot fail.  The concrete call yields an ordinary board
carrying the rule, and a lookup through that rule then fails with
NoParent. -/
theorem c9_counterexample :
    Databoard.withOpts none (some [(['a'], ['{', 'b', '}'])]) false
      = Board.base [] [(['a'], ['{', 'b', '}'])] false
    ∧ DataboardInner.get
        (Databoard.withOpts none (some [(['a'], ['{', 'b', '}'])]) false)
        0 ['a']
      = .error .noParent := by
  constructor
  · rfl
  · simp [Databoard.withOpts, DataboardInner.get, check_top_level_key,
      check_local_key, Remappings.find, strip_board_pointer, stripSuffixChar,
      Board.remappings, Board.database, eqShortcut]

/-- Claim C9 as amended: the constructor always succeeds; a board built
with remappings and no parent carries those rules, and any plain key
remapped by them to a board pointer fails with NoParent when routed. -/
theorem c9_amended (rm : Remaps) (ar : Bool) (ty : Nat) (k t bp : Str)
    (h1 : k.head? ≠ some '@') (h2 : k.head? ≠ some '_')
    (h3 : Remappings.find rm k = some t)
    (h4 : strip_board_pointer t = some bp) :
    DataboardInner.get (Databoard.withOpts none (some rm) ar) ty k
      = .error .noParent
    ∧ (Databoard.withOpts none (some rm) ar).remappings = rm := by
  constructor
  · rw [DataboardInner.get.eq_def]
    split
    · next stripped hok =>
      rw [check_top_level_key_of_head h1] at hok
      cases hok
    · next okey herr =>
      rw [check_top_level_key_of_head h1] at herr
      injection herr with herr
      subst herr
      split
      · next lkey hok =>
        rw [check_local_key_of_head h2] at hok
        cases hok
      · next okey2 herr2 =>
        rw [check_local_key_of_head h2] at herr2
        injection herr2 with herr2
        subst herr2
        simp [Databoard.withOpts, Board.remappings, h3, h4]
  · simp [Databoard.withOpts, Board.remappings]

/-- Witness for C9 as amended, on the one-rule table of the
counterexample board shape but a different rule. -/
theorem c9_witness :
    DataboardInner.get
        (Databoard.withOpts none (some [(['c'], ['{', 'd', '}'])]) true)
        0 ['c']
      = .error .noParent :=
  (c9_amended [(['c'], ['{', 'd', '}'])] true 0 ['c'] ['{', 'd', '}'] ['d']
    (by decide) (by decide) (by decide) (by decide)).1

/-- Claim C10: set on an underscore-prefixed key goes straight to
Database::update on the local database: when the plain key is absent
locally it fails with NotFound and the board is unchanged (no entry is
created), and when present with the requested type it returns the old
value and updates the local entry in place. -/
theorem c10_local_prefix_set_no_create (b : Board) (ty v : Nat) (k : Str) :
    (dbGet b.database k = none →
      DataboardInner.set b ty ('_' :: k) v = (.error .notFound, b))
    ∧ (∀ e : Entry, dbGet b.database k = some e → e.ty = ty →
      DataboardInner.set b ty ('_' :: k) v
        = (.ok (some e.val),
           b.withDatabase (dbSet b.database k
             { e with val := v, sequence_id := nextSeq e.sequence_id }))) := by
  have hstep : DataboardInner.set b ty ('_' :: k) v
      = (match Database.update b.database ty k v with
         | .ok (old, db') => (.ok (some old), b.withDatabase db')
         | .error e => (.error e, b)) := by
    conv_lhs => rw [DataboardInner.set.eq_def]
    rfl
  constructor
  · intro hnone
    rw [hstep]
    simp [Database.update, hnone]
  · intro e he hty
    rw [hstep]
    simp [Database.update, he, hty]

/-- Witness for C10: on an empty standalone board the local-prefixed set
fails with NotFound and changes nothing. -/
theorem c10_witness :
    DataboardInner.set (Board.base [] [] false) 0 ['_', 't'] 5
      = (.error .notFound, Board.base [] [] false) :=
  (c10_local_prefix_set_no_create (Board.base [] [] false) 0 5 ['t']).1 rfl

/-- Claim C1 (evidence of the code bug): on the chain root with a
with_parent leaf (autoremap on, no rules), set of a key absent
everywhere returns ok none but creates the entry in the ROOT's database,
the leaf's local database staying empty -- the claim (and the repository
test auto_remapping) requires creation at the leaf.  When the key exists
only at the root, the same set updates the root's entry and returns the
old value, as claimed. -/
theorem c1_autoremap_set_eval :
    DataboardInner.set
        (Board.child [] [] true (Board.base [] [] false)) 0 ['t'] 42
      = (.ok none,
         Board.child [] [] true
           (Board.base [(['t'], ⟨1, 0, 42, 0, false⟩)] [] false))
    ∧ DataboardInner.set
        (Board.child [] [] true
          (Board.base [(['t'], ⟨1, 0, 41, 0, false⟩)] [] false)) 0 ['t'] 42
      = (.ok (some 41),
         Board.child [] [] true
           (Board.base [(['t'], ⟨2, 0, 42, 0, false⟩)] [] false)) := by
  constructor <;>
    simp [DataboardInner.set, DataboardInner.contains_key, check_top_level_key,
      check_local_key, Remappings.find, Board.database, Board.remappings,
      Board.autoremap, Database.update, Database.create, Database.contains_key,
      dbGet, dbSet, nextSeq, Board.withDatabase, USIZE]

/-- Claim C5 (evidence of the code bug): on a with_parent board whose
parent owns the key with the entry exclusively locked, try_get_ref routed
through autoremap calls the parent's BLOCKING get_ref and therefore
blocks instead of failing with IsLocked, while try_get_mut_ref on the
same configuration correctly fails with IsLocked. -/
theorem c5_try_get_ref_blocks_eval :
    (DataboardInner.try_get_ref
        (Board.child [] [] true
          (Board.base [(['k'], ⟨1, 0, 5, 0, true⟩)] [] false)) 0 ['k']).1
      = .blocks
    ∧ (DataboardInner.try_get_mut_ref
        (Board.child [] [] true
          (Board.base [(['k'], ⟨1, 0, 5, 0, true⟩)] [] false)) 0 ['k']).1
      = .err .isLocked := by
  constructor <;>
    simp [DataboardInner.try_get_ref, DataboardInner.try_get_mut_ref,
      DataboardInner.get_ref, check_top_level_key, check_local_key,
      Remappings.find, Board.database, Board.remappings, Board.autoremap,
      Database.try_get_ref, Database.get_ref, Database.try_get_mut_ref,
      dbGet, dbSet, EntryReadGuard.new, EntryReadGuard.try_new,
      EntryWriteGuard.try_new]

/-- Claim C7: prefixing any key with the at-sign and running any of the
eleven single-key operations on a board is the same as running the
operation with the plain key on the root of its parent chain -- the same
result, and for the mutating and guard-taking operations the same state
change, the board's view being its chain with the root subtree replaced
by the root's new state. -/
theorem c7_top_level_redirect (b : Board) (ty v : Nat) (k : Str) :
    DataboardInner.contains_key b ('@' :: k)
      = DataboardInner.contains_key (rootB b) k
    ∧ DataboardInner.contains b ty ('@' :: k)
      = DataboardInner.contains (rootB b) ty k
    ∧ DataboardInner.get b ty ('@' :: k) = DataboardInner.get (rootB b) ty k
    ∧ DataboardInner.set b ty ('@' :: k) v
      = ((DataboardInner.set (rootB b) ty k v).1,
         graftRoot b (DataboardInner.set (rootB b) ty k v).2)
    ∧ DataboardInner.delete b ty ('@' :: k)
      = ((DataboardInner.delete (rootB b) ty k).1,
         graftRoot b (DataboardInner.delete (rootB b) ty k).2)
    ∧ DataboardInner.sequence_id b ('@' :: k)
      = DataboardInner.sequence_id (rootB b) k
    ∧ DataboardInner.entry b ('@' :: k) = DataboardInner.entry (rootB b) k
    ∧ DataboardInner.get_ref b ty ('@' :: k)
      = ((DataboardInner.get_ref (rootB b) ty k).1,
         graftRoot b (DataboardInner.get_ref (rootB b) ty k).2)
    ∧ DataboardInner.get_mut_ref b ty ('@' :: k)
      = ((DataboardInner.get_mut_ref (rootB b) ty k).1,
         graftRoot b (DataboardInner.get_mut_ref (rootB b) ty k).2)
    ∧ DataboardInner.try_get_ref b ty ('@' :: k)
      = ((DataboardInner.try_get_ref (rootB b) ty k).1,
         graftRoot b (DataboardInner.try_get_ref (rootB b) ty k).2)
    ∧ DataboardInner.try_get_mut_ref b ty ('@' :: k)
      = ((DataboardInner.try_get_mut_ref (rootB b) ty k).1,
         graftRoot b (DataboardInner.try_get_mut_ref (rootB b) ty k).2) := by
  refine ⟨?_, ?_, ?_, ?_, ?_, ?_, ?_, ?_, ?_, ?_, ?_⟩
  · conv_lhs => rw [DataboardInner.contains_key.eq_def]
    rfl
  · conv_lhs => rw [DataboardInner.contains.eq_def]
    rfl
  · conv_lhs => rw [DataboardInner.get.eq_def]
    rfl
  · conv_lhs => rw [DataboardInner.set.eq_def]
    rfl
  · conv_lhs => rw [DataboardInner.delete.eq_def]
    rfl
  · conv_lhs => rw [DataboardInner.sequence_id.eq_def]
    rfl
  · conv_lhs => rw [DataboardInner.entry.eq_def]
    rfl
  · conv_lhs => rw [DataboardInner.get_ref.eq_def]
    rfl
  · conv_lhs => rw [DataboardInner.get_mut_ref.eq_def]
    rfl
  · conv_lhs => rw [DataboardInner.try_get_ref.eq_def]
    rfl
  · conv_lhs => rw [DataboardInner.try_get_mut_ref.eq_def]
    rfl

-- endregion
